import Mathlib

/-!
Shallow embedding of `src/compiler/styxc_ast/src/lib.rs` (crate `styxc_ast`
of the flux repository): spans, operator metadata, the AST node model, and
the validation pipeline, together with proofs of the specification claims.

Rust strings (`&str`, iterated by `chars()`) are modelled as `List Char`;
Rust `usize` is modelled as `Nat`, with the 64-bit bound made explicit
where the source's `parse::<usize>()` can overflow. Fallible functions
returning `Result<T, Box<dyn Error>>` are modelled as `Except String T`,
carrying the error message.
-/

namespace Styx

/-- Rust `usize` overflow bound: `usize::MAX + 1` on a 64-bit target. -/
def usizeBound : Nat := 2 ^ 64

/-- A Rust `&str` as its sequence of `char`s. -/
abbrev Str := List Char

/-- Error payload of `Box<dyn Error>`: the message string. -/
abbrev Err := String

/-- `Span(start, end)`: a span of a string, inclusive end index. -/
structure Span where
  start : Nat
  stop : Nat
deriving DecidableEq, Repr

/-- `Span::includes`: `self.0 < other.0 && self.1 > other.1`. -/
def Span.includes (self other : Span) : Bool :=
  decide (self.start < other.start) && decide (self.stop > other.stop)

/-- `Span::overlaps`: `self.0 <= other.1 && self.1 >= other.0`. -/
def Span.overlaps (self other : Span) : Bool :=
  decide (self.start ≤ other.stop) && decide (self.stop ≥ other.start)

/-- `Associativity`: left-to-right or right-to-left. -/
inductive Associativity where
  | Ltr
  | Rtl
deriving DecidableEq, Repr

/-- An argument to a function call (`ParenArgument`). -/
structure ParenArgument where
  id : Nat
  ident : Nat
deriving DecidableEq, Repr

/-- `UnOpKind`: unary operator kinds. -/
inductive UnOpKind where
  | SuffixIncr
  | SuffixDecr
  | PrefixIncr
  | PrefixDecr
  | Index (n : Nat)
  | Addr
  | Not
  | LogNot
  | Deref
  | Call (args : List ParenArgument)
  | Neg
deriving DecidableEq, Repr

/-- Rust `str::starts_with` with a single-character pattern. -/
def startsWithChar (s : Str) (c : Char) : Bool :=
  match s with
  | [] => false
  | a :: _ => a == c

/-- Rust `str::ends_with` with a single-character pattern. -/
def endsWithChar (s : Str) (c : Char) : Bool :=
  match s.getLast? with
  | none => false
  | some a => a == c

/-- Rust `str::parse::<usize>()`: an optional leading `+` sign followed by
one or more decimal digits, failing on empty input, non-digit characters,
or overflow past `usize::MAX`. -/
def parseUsize (s : Str) : Option Nat :=
  let t : Str := if startsWithChar s '+' then s.drop 1 else s
  if t.isEmpty then none
  else if t.all Char.isDigit then
    let n := t.foldl (fun acc c => acc * 10 + (c.toNat - 48)) 0
    if n < usizeBound then some n else none
  else none

/-- `<UnOpKind as FromStr>::from_str`: index forms `[..]` first (inner text
parsed leniently, `unwrap_or(0)`), then the fixed single-token forms. -/
def UnOpKind.fromStr (s : Str) : Except Err UnOpKind :=
  if startsWithChar s '[' && endsWithChar s ']' then
    let inner : Str := (s.drop 1).dropLast
    .ok (.Index ((parseUsize inner).getD 0))
  else
    match s with
    | ['+', '+'] => .error "cannot determine associativity of operator"
    | ['-', '-'] => .error "cannot determine associativity of operator"
    | ['&'] => .ok .Addr
    | ['~'] => .ok .Not
    | ['!'] => .ok .LogNot
    | ['*'] => .ok .Deref
    | _ => .error "invalid unary operator"

/-- `UnOpKind::precedence`. -/
def UnOpKind.precedence : UnOpKind → Nat
  | .SuffixIncr | .SuffixDecr | .Index _ => 1
  | _ => 2

/-- `UnOpKind::associativity`. -/
def UnOpKind.associativity : UnOpKind → Associativity
  | .SuffixIncr | .SuffixDecr | .Index _ => .Ltr
  | _ => .Rtl

/-- `BinOpKind`: the binary operator kinds. -/
inductive BinOpKind where
  | Add
  | Sub
  | Mul
  | Div
  | Mod
  | And
  | Or
  | Xor
  | LogAnd
  | LogOr
  | Shl
  | Shr
  | Eq
  | Ne
  | Lt
  | Gt
  | Le
  | Ge
deriving DecidableEq, Repr, Fintype

/-- `<BinOpKind as FromStr>::from_str`: exact match over the spellings the
source lists (note: the source has no arms for `&&` or `||`). -/
def BinOpKind.fromStr (s : Str) : Except Err BinOpKind :=
  match s with
  | ['+'] => .ok .Add
  | ['-'] => .ok .Sub
  | ['*'] => .ok .Mul
  | ['/'] => .ok .Div
  | ['%'] => .ok .Mod
  | ['&'] => .ok .And
  | ['|'] => .ok .Or
  | ['^'] => .ok .Xor
  | ['<', '<'] => .ok .Shl
  | ['>', '>'] => .ok .Shr
  | ['=', '='] => .ok .Eq
  | ['!', '='] => .ok .Ne
  | ['<'] => .ok .Lt
  | ['>'] => .ok .Gt
  | ['<', '='] => .ok .Le
  | ['>', '='] => .ok .Ge
  | _ => .error "invalid binary operator"

/-- `BinOpKind::precedence`. -/
def BinOpKind.precedence : BinOpKind → Nat
  | .Mul | .Div | .Mod => 3
  | .Add | .Sub => 4
  | .Shl | .Shr => 5
  | .Lt | .Gt | .Le | .Ge => 6
  | .Eq | .Ne => 7
  | .And => 8
  | .Xor => 9
  | .Or => 10
  | .LogAnd => 11
  | .LogOr => 12

/-- `BinOpKind::associativity`: every arm yields `Ltr`. -/
def BinOpKind.associativity : BinOpKind → Associativity
  | _ => .Ltr

/-- `LiteralKind`: the closed set of literal payloads. -/
inductive LiteralKind where
  | Int (v : Int)
  | Float (v : Float)
  | String (v : List Char)
  | Char (v : Char)
  | Bool (v : Bool)

/-- A literal value with node id and span. -/
structure Literal where
  id : Nat
  kind : LiteralKind
  span : Span

/-- An identifier node. -/
structure Ident where
  id : Nat
  name : List Char
  span : Span

/-- `Mutability` of a declared variable. -/
inductive Mutability where
  | Mutable
  | Immutable
  | Constant
deriving DecidableEq, Repr

/-- `AssignmentKind`: the assignment operator spellings. -/
inductive AssignmentKind where
  | Assign
  | ShlAssign
  | ShrAssign
  | AndAssign
  | OrAssign
  | XorAssign
  | AddAssign
  | SubAssign
  | MulAssign
  | DivAssign
  | ModAssign
deriving DecidableEq, Repr

mutual

/-- `Expr`: expression variants. -/
inductive Expr where
  | Literal (lit : Literal)
  | Ident (i : Ident)
  | BinOp (b : BinOp)
  | Block (b : Block)

/-- `BinOp`: a binary expression with boxed operands. -/
inductive BinOp where
  | mk (id : Nat) (lhs rhs : Expr) (kind : BinOpKind)

/-- `Declaration` of a variable. -/
inductive Declaration where
  | mk (ident : Ident) (mutability : Mutability) (value : Expr)

/-- A variable `Assignment`. -/
inductive Assignment where
  | mk (ident : Ident) (value : Expr) (kind : AssignmentKind)

/-- `StmtKind`: statement variants. -/
inductive StmtKind where
  | Declaration (ds : List Declaration)
  | Assignment (a : Assignment)
  | Loop (l : Loop)

/-- A statement with node id. -/
inductive Stmt where
  | mk (id : Nat) (kind : StmtKind)

/-- A block of statements. -/
inductive Block where
  | mk (stmts : List Stmt) (id : Nat)

/-- A loop owning a block. -/
inductive Loop where
  | mk (id : Nat) (block : Block)

end

/-- An external, imported `Module`. -/
structure Module where
  id : Nat

/-- A declared variable in the current context (`Var`). -/
structure Var where
  ident : Nat
  mutability : Mutability

/-- An AST `Context`, in which variables are defined. -/
structure Context where
  vars : List Var

/-- The root `AST` instance. -/
structure AST where
  stmts : List Stmt
  modules : List Module

/-- `AST::new`. -/
def AST.new : AST :=
  { stmts := [], modules := [] }

/-- A validation pass: `fn(ast: &AST) -> Result<(), Box<dyn Error>>`. -/
abbrev Pass := AST → Except Err Unit

/-- Modelled from the spec: the crate's `passes` module (declared by
`mod passes;` and re-imported as `passes::validate_symbols`) is not part of
this slice; the spec treats symbol validation as an opaque external
collaborator of signature `AST -> Result<(), Error>`, so it is modelled as
an arbitrary fixed pass value. -/
def validate_symbols : Pass :=
  fun _ => .ok ()

/-- Modelled from the spec: the crate's `passes` module (declared by
`mod passes;` and re-imported as `passes::validate_types`) is not part of
this slice; the spec treats type validation as an opaque external
collaborator of signature `AST -> Result<(), Error>`, so it is modelled as
an arbitrary fixed pass value. -/
def validate_types : Pass :=
  fun _ => .ok ()

/-- `ASTValidator`: an ordered list of validation passes. -/
structure ASTValidator where
  passes : List Pass

/-- `<ASTValidator as Default>::default()`. -/
def ASTValidator.default : ASTValidator :=
  { passes := [validate_symbols, validate_types] }

/-- `ASTValidator::add_pass`: `self.passes.push(pass); self`. -/
def ASTValidator.add_pass (self : ASTValidator) (pass : Pass) : ASTValidator :=
  { passes := self.passes ++ [pass] }

/-- The loop body of `ASTValidator::walk`, iterating over the pass list. -/
def walkPasses (passes : List Pass) (ast : AST) : Except Err Unit :=
  match passes with
  | [] => .ok ()
  | p :: rest =>
    match p ast with
    | .ok () => walkPasses rest ast
    | .error err => .error err

/-- `ASTValidator::walk`. -/
def ASTValidator.walk (self : ASTValidator) (ast : AST) : Except Err Unit :=
  walkPasses self.passes ast

/-! ### Helper lemmas -/

/-- Boolean `overlaps` unfolded to its arithmetic characterisation. -/
theorem overlaps_eq_true_iff (a b : Span) :
    a.overlaps b = true ↔ a.start ≤ b.stop ∧ b.start ≤ a.stop := by
  simp [Span.overlaps, ge_iff_le]

/-- Boolean `includes` unfolded to its arithmetic characterisation. -/
theorem includes_eq_true_iff (a b : Span) :
    a.includes b = true ↔ a.start < b.start ∧ b.stop < a.stop := by
  simp [Span.includes]

/-- A list fold accumulating decimal digits computes the base-10 value of
the digit string. -/
theorem foldl_base10_eq_ofDigits (f : Char → Nat) (d : Str) (init : Nat) :
    d.foldl (fun acc c => acc * 10 + f c) init =
      init * 10 ^ d.length + Nat.ofDigits 10 ((d.map f).reverse) := by
  induction d generalizing init with
  | nil => simp [Nat.ofDigits_nil]
  | cons c cs ih =>
    simp only [List.foldl_cons, List.map_cons, List.reverse_cons,
      List.length_cons]
    rw [ih, Nat.ofDigits_append, Nat.ofDigits_singleton]
    simp only [List.length_reverse, List.length_map]
    ring

/-- If every pass succeeds on `ast`, the walk loop succeeds. -/
theorem walkPasses_ok (passes : List Pass) (ast : AST)
    (h : ∀ q ∈ passes, q ast = .ok ()) : walkPasses passes ast = .ok () := by
  induction passes with
  | nil => rfl
  | cons p rest ih =>
    simp only [walkPasses]
    rw [h p (List.mem_cons_self p rest)]
    exact ih fun q hq => h q (List.mem_cons_of_mem p hq)

/-- The walk loop returns the error of the first failing pass. -/
theorem walkPasses_first_error (l1 : List Pass) (p : Pass) (l2 : List Pass)
    (ast : AST) (e : Err) (h1 : ∀ q ∈ l1, q ast = .ok ())
    (hp : p ast = .error e) :
    walkPasses (l1 ++ p :: l2) ast = .error e := by
  induction l1 with
  | nil =>
    simp only [List.nil_append, walkPasses]
    rw [hp]
  | cons q rest ih =>
    simp only [List.cons_append, walkPasses]
    rw [h1 q (List.mem_cons_self q rest)]
    exact ih fun r hr => h1 r (List.mem_cons_of_mem q hr)

/-- On a non-empty all-digit string, `parseUsize` succeeds with the base-10
value, provided the value fits in `usize`. -/
theorem parseUsize_digits (d : Str) (hne : d ≠ [])
    (hdig : ∀ c ∈ d, c.isDigit)
    (hlt : Nat.ofDigits 10 ((d.map fun c => c.toNat - 48)).reverse
      < usizeBound) :
    parseUsize d =
      some (Nat.ofDigits 10 ((d.map fun c => c.toNat - 48)).reverse) := by
  have hfold : d.foldl (fun acc c => acc * 10 + (c.toNat - 48)) 0 =
      Nat.ofDigits 10 ((d.map fun c => c.toNat - 48)).reverse := by
    rw [foldl_base10_eq_ofDigits]
    simp
  have hplus : startsWithChar d '+' = false := by
    cases d with
    | nil => rfl
    | cons c cs =>
      have hc := hdig c (List.mem_cons_self c cs)
      show (c == '+') = false
      cases h : (c == '+') with
      | false => rfl
      | true =>
        rw [beq_iff_eq] at h
        subst h
        exact absurd hc (by decide)
  have hall : d.all Char.isDigit = true := List.all_eq_true.mpr hdig
  have hemp : d.isEmpty = false := by
    cases d with
    | nil => exact absurd rfl hne
    | cons c cs => rfl
  unfold parseUsize
  simp [hplus, hall, hemp, hfold, hlt]

/-- A sample pass that always succeeds. -/
def passOkA : Pass := fun _ => .ok ()

/-- A sample pass that always fails. -/
def passErrB : Pass := fun _ => .error "pass failed"

/-- A second sample pass that always succeeds. -/
def passOkC : Pass := fun _ => .ok ()

/-! ### Claims -/

/-- C1 (code bug in `BinOpKind::from_str`): the source's match lists no arm
for `&&` or `||`, although the enum documents `LogAnd` as `&&` and `LogOr`
as `||`; both spellings fall through to the error branch instead of
parsing, so the claimed 18-spelling round-trip fails at `&&` and `||`. -/
theorem binop_fromStr_missing_logical_spellings :
    BinOpKind.fromStr ['&', '&'] = .error "invalid binary operator" ∧
    BinOpKind.fromStr ['|', '|'] = .error "invalid binary operator" := by
  exact ⟨rfl, rfl⟩

/-- C3: `BinOpKind::precedence` realises exactly the documented table
(3 Mul/Div/Mod, 4 Add/Sub, 5 Shl/Shr, 6 Lt/Gt/Le/Ge, 7 Eq/Ne, 8 And,
9 Xor, 10 Or, 11 LogAnd, 12 LogOr), and `associativity` is `Ltr` for every
binary operator. -/
theorem binop_precedence_table_and_ltr :
    BinOpKind.Mul.precedence = 3 ∧ BinOpKind.Div.precedence = 3 ∧
    BinOpKind.Mod.precedence = 3 ∧ BinOpKind.Add.precedence = 4 ∧
    BinOpKind.Sub.precedence = 4 ∧ BinOpKind.Shl.precedence = 5 ∧
    BinOpKind.Shr.precedence = 5 ∧ BinOpKind.Lt.precedence = 6 ∧
    BinOpKind.Gt.precedence = 6 ∧ BinOpKind.Le.precedence = 6 ∧
    BinOpKind.Ge.precedence = 6 ∧ BinOpKind.Eq.precedence = 7 ∧
    BinOpKind.Ne.precedence = 7 ∧ BinOpKind.And.precedence = 8 ∧
    BinOpKind.Xor.precedence = 9 ∧ BinOpKind.Or.precedence = 10 ∧
    BinOpKind.LogAnd.precedence = 11 ∧ BinOpKind.LogOr.precedence = 12 ∧
    ∀ k : BinOpKind, k.associativity = .Ltr := by
  refine ⟨rfl, rfl, rfl, rfl, rfl, rfl, rfl, rfl, rfl, rfl, rfl, rfl, rfl,
    rfl, rfl, rfl, rfl, rfl, fun k => rfl⟩

/-- C5: `Index`, `SuffixIncr` and `SuffixDecr` have precedence 1 and `Ltr`
associativity; every other unary kind has precedence 2 and `Rtl`
associativity. -/
theorem unop_precedence_associativity :
    (∀ n, (UnOpKind.Index n).precedence = 1 ∧
      (UnOpKind.Index n).associativity = .Ltr) ∧
    UnOpKind.SuffixIncr.precedence = 1 ∧
    UnOpKind.SuffixIncr.associativity = .Ltr ∧
    UnOpKind.SuffixDecr.precedence = 1 ∧
    UnOpKind.SuffixDecr.associativity = .Ltr ∧
    UnOpKind.PrefixIncr.precedence = 2 ∧
    UnOpKind.PrefixIncr.associativity = .Rtl ∧
    UnOpKind.PrefixDecr.precedence = 2 ∧
    UnOpKind.PrefixDecr.associativity = .Rtl ∧
    UnOpKind.Addr.precedence = 2 ∧ UnOpKind.Addr.associativity = .Rtl ∧
    UnOpKind.Not.precedence = 2 ∧ UnOpKind.Not.associativity = .Rtl ∧
    UnOpKind.LogNot.precedence = 2 ∧ UnOpKind.LogNot.associativity = .Rtl ∧
    UnOpKind.Deref.precedence = 2 ∧ UnOpKind.Deref.associativity = .Rtl ∧
    (∀ args, (UnOpKind.Call args).precedence = 2 ∧
      (UnOpKind.Call args).associativity = .Rtl) ∧
    UnOpKind.Neg.precedence = 2 ∧ UnOpKind.Neg.associativity = .Rtl := by
  refine ⟨fun n => ⟨rfl, rfl⟩, rfl, rfl, rfl, rfl, rfl, rfl, rfl, rfl, rfl,
    rfl, rfl, rfl, rfl, rfl, rfl, rfl, fun args => ⟨rfl, rfl⟩, rfl, rfl⟩

/-- C6 as stated is false: `overlaps` is not equivalent to intersection of
the closed intervals without well-formedness — at the concrete spans
`(5,0)` and `(0,10)`, `overlaps` returns `true` although the closed
interval `[5,0]` is empty and intersects nothing. -/
theorem span_overlaps_counterexample :
    ¬ ((Span.mk 5 0).overlaps (Span.mk 0 10) = true ↔
      ∃ x : Nat, (5 ≤ x ∧ x ≤ 0) ∧ (0 ≤ x ∧ x ≤ 10)) := by
  intro h
  rcases h.mp (by decide) with ⟨x, ⟨h1, h2⟩, _⟩
  omega

/-- C6 amended: `includes` is true iff self strictly surrounds other
(unconditionally), `overlaps` is true iff the closed intervals intersect
provided both spans are well-formed (`start ≤ stop`), and the concrete
example quintuple from the source's test holds. -/
theorem span_includes_overlaps_spec :
    (∀ a b : Span, a.includes b = true ↔
      a.start < b.start ∧ b.stop < a.stop) ∧
    (∀ a b : Span, a.start ≤ a.stop → b.start ≤ b.stop →
      (a.overlaps b = true ↔
        ∃ x : Nat, (a.start ≤ x ∧ x ≤ a.stop) ∧
          (b.start ≤ x ∧ x ≤ b.stop))) ∧
    ((Span.mk 0 10).includes (Span.mk 3 5) = true ∧
     (Span.mk 0 10).includes (Span.mk 6 11) = false ∧
     (Span.mk 0 10).overlaps (Span.mk 3 5) = true ∧
     (Span.mk 0 10).overlaps (Span.mk 6 11) = true ∧
     (Span.mk 3 5).overlaps (Span.mk 6 11) = false) := by
  refine ⟨includes_eq_true_iff, fun a b ha hb => ?_, by decide⟩
  rw [overlaps_eq_true_iff]
  constructor
  · rintro ⟨h1, h2⟩
    exact ⟨max a.start b.start, ⟨by omega, by omega⟩, by omega, by omega⟩
  · rintro ⟨x, ⟨hax, hxa⟩, hbx, hxb⟩
    omega

/-- C6 witness: the amended overlap characterisation applied at the
well-formed spans `(0,10)` and `(3,5)`. -/
theorem span_includes_overlaps_spec_witness :
    (Span.mk 0 10).overlaps (Span.mk 3 5) = true ↔
      ∃ x : Nat, (0 ≤ x ∧ x ≤ 10) ∧ (3 ≤ x ∧ x ≤ 5) :=
  span_includes_overlaps_spec.2.1 (Span.mk 0 10) (Span.mk 3 5)
    (by decide) (by decide)

/-- C8: `overlaps` is symmetric for arbitrary spans, with no
well-formedness assumption. -/
theorem span_overlaps_symm (a b : Span) : a.overlaps b = b.overlaps a := by
  rw [Bool.eq_iff_iff, overlaps_eq_true_iff, overlaps_eq_true_iff]
  constructor
  · rintro ⟨h1, h2⟩
    exact ⟨h2, h1⟩
  · rintro ⟨h1, h2⟩
    exact ⟨h2, h1⟩

/-- C9: for a well-formed second span (`start ≤ stop`), strict inclusion
implies overlap. -/
theorem span_includes_implies_overlaps (a b : Span)
    (hb : b.start ≤ b.stop) (h : a.includes b = true) :
    a.overlaps b = true := by
  rw [includes_eq_true_iff] at h
  rw [overlaps_eq_true_iff]
  omega

/-- C9 witness: inclusion implies overlap at the spans `(0,10)` and
`(3,5)`. -/
theorem span_includes_implies_overlaps_witness :
    (Span.mk 0 10).overlaps (Span.mk 3 5) = true :=
  span_includes_implies_overlaps (Span.mk 0 10) (Span.mk 3 5)
    (by decide) (by decide)

/-- C7: the default validator's pass list is exactly
`[validate_symbols, validate_types]` in that order, and `add_pass`
appends the new pass at the end, preserving the existing order. -/
theorem astValidator_default_add_pass :
    ASTValidator.default.passes = [validate_symbols, validate_types] ∧
    ∀ (v : ASTValidator) (p : Pass),
      (v.add_pass p).passes = v.passes ++ [p] :=
  ⟨rfl, fun _ _ => rfl⟩

/-- C2: `walk` applies the registered passes in registration order and
returns the error of the first failing pass — whatever passes follow it —
and returns `Ok(())` when every registered pass succeeds. -/
theorem astValidator_walk_spec (v : ASTValidator) (ast : AST) :
    (∀ (l1 : List Pass) (p : Pass) (l2 : List Pass) (e : Err),
      v.passes = l1 ++ p :: l2 → (∀ q ∈ l1, q ast = .ok ()) →
      p ast = .error e → v.walk ast = .error e) ∧
    ((∀ q ∈ v.passes, q ast = .ok ()) → v.walk ast = .ok ()) := by
  constructor
  · intro l1 p l2 e hv h1 hp
    rw [ASTValidator.walk, hv]
    exact walkPasses_first_error l1 p l2 ast e h1 hp
  · intro h
    exact walkPasses_ok v.passes ast h

/-- C4: `UnOpKind::from_str` parses `[3]` to `Index 3` and, generally, a
bracketed digit string to `Index` of its base-10 value; `[abc]` falls back
leniently to `Index 0`; `++` and `--` fail with the ambiguity message;
`&`, `~`, `!`, `*` parse to `Addr`, `Not`, `LogNot`, `Deref`; every other
text fails with "invalid unary operator". -/
theorem unop_fromStr_spec :
    UnOpKind.fromStr ['[', '3', ']'] = .ok (.Index 3) ∧
    UnOpKind.fromStr ['[', 'a', 'b', 'c', ']'] = .ok (.Index 0) ∧
    UnOpKind.fromStr ['+', '+'] =
      .error "cannot determine associativity of operator" ∧
    UnOpKind.fromStr ['-', '-'] =
      .error "cannot determine associativity of operator" ∧
    UnOpKind.fromStr ['&'] = .ok .Addr ∧
    UnOpKind.fromStr ['~'] = .ok .Not ∧
    UnOpKind.fromStr ['!'] = .ok .LogNot ∧
    UnOpKind.fromStr ['*'] = .ok .Deref ∧
    (∀ d : Str, d ≠ [] → (∀ c ∈ d, c.isDigit) →
      Nat.ofDigits 10 ((d.map fun c => c.toNat - 48)).reverse < usizeBound →
      UnOpKind.fromStr ('[' :: (d ++ [']'])) =
        .ok (.Index (Nat.ofDigits 10 ((d.map fun c => c.toNat - 48)).reverse))) ∧
    (∀ s : Str,
      ¬ (startsWithChar s '[' = true ∧ endsWithChar s ']' = true) →
      s ∉ ([['+', '+'], ['-', '-'], ['&'], ['~'], ['!'], ['*']] : List Str) →
      UnOpKind.fromStr s = .error "invalid unary operator") := by
  refine ⟨rfl, rfl, rfl, rfl, rfl, rfl, rfl, rfl, ?_, ?_⟩
  · intro d hne hdig hlt
    have hcond : (startsWithChar ('[' :: (d ++ [']'])) '[' &&
        endsWithChar ('[' :: (d ++ [']'])) ']') = true := by
      have hend : endsWithChar ('[' :: (d ++ [']'])) ']' = true := by
        unfold endsWithChar
        rw [← List.cons_append, List.getLast?_concat]
        rfl
      rw [hend]
      rfl
    unfold UnOpKind.fromStr
    rw [if_pos hcond]
    have hinner : (('[' :: (d ++ [']'])).drop 1).dropLast = d := by
      show (d ++ [']']).dropLast = d
      exact List.dropLast_concat
    simp [hinner, parseUsize_digits d hne hdig hlt]
  · intro s hidx hmem
    unfold UnOpKind.fromStr
    rw [if_neg (by rw [Bool.and_eq_true]; exact hidx)]
    split
    · exact absurd (by decide) hmem
    · exact absurd (by decide) hmem
    · exact absurd (by decide) hmem
    · exact absurd (by decide) hmem
    · exact absurd (by decide) hmem
    · exact absurd (by decide) hmem
    · rfl

/-- C4 witness: the general bracketed-digits clause applied at the input
`[42]`, whose digit value 4·10+2 is in range. -/
theorem unop_fromStr_spec_witness :
    UnOpKind.fromStr ['[', '4', '2', ']'] =
      .ok (.Index (Nat.ofDigits 10
        (((['4', '2'] : Str).map fun c => c.toNat - 48)).reverse)) :=
  unop_fromStr_spec.2.2.2.2.2.2.2.2.1 ['4', '2'] (by decide) (by decide)
    (by decide)

/-- C10: a successful unary parse only ever yields `Index`, `Addr`, `Not`,
`LogNot` or `Deref`; the position-dependent kinds (`SuffixIncr`,
`SuffixDecr`, `PrefixIncr`, `PrefixDecr`, `Call`, `Neg`) are never
produced from operator text. -/
theorem unop_fromStr_range (s : Str) (k : UnOpKind)
    (h : UnOpKind.fromStr s = .ok k) :
    (∃ n, k = .Index n) ∨ k = .Addr ∨ k = .Not ∨ k = .LogNot ∨
      k = .Deref := by
  unfold UnOpKind.fromStr at h
  split at h
  · cases h
    exact .inl ⟨_, rfl⟩
  · split at h <;> cases h <;> simp

/-- C10 witness: the range property applied at the input `&`, which parses
to `Addr`. -/
theorem unop_fromStr_range_witness :
    (∃ n, UnOpKind.Addr = UnOpKind.Index n) ∨ UnOpKind.Addr = .Addr ∨
      UnOpKind.Addr = .Not ∨ UnOpKind.Addr = .LogNot ∨
      UnOpKind.Addr = .Deref :=
  unop_fromStr_range ['&'] .Addr rfl

/-- C2 witness: with passes `[Ok, Err, Ok]` registered in that order, the
walk returns the middle pass's error. -/
theorem astValidator_walk_spec_witness :
    ASTValidator.walk { passes := [passOkA, passErrB, passOkC] } AST.new =
      .error "pass failed" :=
  (astValidator_walk_spec { passes := [passOkA, passErrB, passOkC] }
      AST.new).1 [passOkA] passErrB [passOkC] "pass failed" rfl
    (by intro q hq; rw [List.mem_singleton] at hq; subst hq; rfl) rfl

end Styx
